import Mathlib

/-!
Shallow embedding of the character-selection / image-preview widget logic of
the Comfyui-character-tag-selector repository (authoritative source:
`web/js/character_preview.js`), together with theorems checking the
natural-language specification against it.

The JavaScript is event-driven and mutates module-level state; it is embedded
here as pure functions over explicit state records.  Strings are Lean
`String`s; JavaScript `Array`s are `List`s; the JavaScript object used as a
map (`characterDataMap`) is an association list with JavaScript assignment
semantics (update-in-place if the key is present, else append); the
`Map` used as the dataset cache (`fileCache`) is likewise an association
list.  The `fetch`/JSON layer is a parameter `fetch : String → FetchResult`
giving, per normalized file name, either a transport/parse failure or the
decoded array of raw records.
-/

set_option autoImplicit false

namespace CharacterPreview

/-! ## JavaScript string primitives -/

/-- Whitespace trim on a character list: drop leading and trailing whitespace,
mirroring `String.prototype.trim()`. -/
def jsTrim (cs : List Char) : List Char :=
  ((cs.dropWhile Char.isWhitespace).reverse.dropWhile Char.isWhitespace).reverse

/-- Trim of a Lean string, used wherever the source calls `.trim()`. -/
def jsTrimStr (s : String) : String :=
  String.mk (jsTrim s.data)

/-- Prepend a character to the first piece of a piece list. -/
def consHead (x : Char) : List (List Char) → List (List Char)
  | [] => [[x]]
  | p :: ps => (x :: p) :: ps

/-- Split a character list at every occurrence of the separator character,
mirroring `String.prototype.split(sep)` for a one-character separator:
the result is never empty, and separators never appear inside a piece. -/
def splitChar (c : Char) : List Char → List (List Char)
  | [] => [[]]
  | x :: xs =>
    if x = c then [] :: splitChar c xs
    else consHead x (splitChar c xs)

/-- Last element of a list of pieces, mirroring `Array.prototype.pop()`
applied to the (never empty) result of a split. -/
def jsPop : List (List Char) → List Char
  | [] => []
  | [x] => x
  | _ :: x :: xs => jsPop (x :: xs)

/-- Scan for two consecutive dots, mirroring `s.includes("..")`. -/
def hasDoubleDot : List Char → Bool
  | '.' :: '.' :: _ => true
  | _ :: xs => hasDoubleDot xs
  | [] => false

/-- Boolean character membership used to state "contains no path separator". -/
def hasChar : List Char → Char → Bool
  | [], _ => false
  | x :: xs, c => if x = c then true else hasChar xs c

/-- Backslash-to-slash replacement, mirroring `s.replace(/\\/g, "/")`. -/
def slashify (c : Char) : Char :=
  if c = '\\' then '/' else c

/-! ## Resource-name normalization (`normalizeJsonFile`, lines 19-27) -/

/-- Final path segment of the trimmed, backslash-normalized input: what
`s.replace(/\\/g, "/").split("/").pop()` computes. -/
def finalSegment (value : String) : List Char :=
  jsPop (splitChar '/' ((jsTrim value.data).map slashify))

/-- Embedding of `normalizeJsonFile` (lines 19-27): trim; empty input is
rejected; replace backslashes by slashes; keep only the basename; reject a
basename containing `".."`. -/
def normalizeJsonFile (value : String) : String :=
  let s := jsTrim value.data
  if s = [] then ""
  else
    let seg := jsPop (splitChar '/' (s.map slashify))
    if hasDoubleDot seg then "" else String.mk seg

/-! ## Character records, payloads and the lookup map

The JavaScript object `characterDataMap` is embedded as an association list
with JavaScript assignment semantics: assigning to a present key updates it
in place, assigning to an absent key appends it. -/

/-- Raw dataset record as decoded from JSON: each field is optional
(`char.name_cn || ""` treats an absent field as the empty string). -/
structure RawChar where
  name_cn : Option String
  name_en : Option String
  icon_url : Option String
  deriving DecidableEq

/-- Processed per-record payload (lines 73-78). -/
structure Payload where
  icon_url : String
  name_cn : String
  name_en : String
  displayName : String
  deriving DecidableEq

/-- The alias-to-payload map. -/
abbrev CharMap := List (String × Payload)

/-- JavaScript object assignment `map[k] = payload`: update in place when the
key is present, append otherwise. -/
def setKey : CharMap → String → Payload → CharMap
  | [], k, p => [(k, p)]
  | (k', p') :: rest, k, p =>
    if k' = k then (k, p) :: rest else (k', p') :: setKey rest k p

/-- JavaScript property read `map[k]`. -/
def mapGet : CharMap → String → Option Payload
  | [], _ => none
  | (k', p') :: rest, k => if k' = k then some p' else mapGet rest k

/-- Embedding of `addKey` (lines 12-17): skip an empty key, trim it, skip a
key that is blank after trimming, otherwise assign. -/
def addKey (m : CharMap) (key : String) (payload : Payload) : CharMap :=
  if key = "" then m
  else
    let k := jsTrimStr key
    if k = "" then m else setKey m k payload

/-- Display-name rule stated in the spec's words (section 3): the combined
form when both localized names are non-empty, else whichever is non-empty,
else the fixed placeholder.  Declared separately from `processChar` so the
code-derived rule can be compared against it. -/
def specDisplayName (a b : String) : String :=
  if a ≠ "" ∧ b ≠ "" then a ++ " (" ++ b ++ ")"
  else if a ≠ "" then a
  else if b ≠ "" then b
  else "未命名角色"

/-- Embedding of the record-processing body of the `data.forEach` loop
(lines 64-78): trim both names, derive the display name, trim the icon URL. -/
def processChar (char : RawChar) : Payload :=
  let name_cn := jsTrimStr (char.name_cn.getD "")
  let name_en := jsTrimStr (char.name_en.getD "")
  let displayName :=
    if name_cn ≠ "" ∧ name_en ≠ "" then name_cn ++ " (" ++ name_en ++ ")"
    else if name_cn ≠ "" then name_cn
    else if name_en ≠ "" then name_en
    else "未命名角色"
  { icon_url := jsTrimStr (char.icon_url.getD ""), name_cn := name_cn,
    name_en := name_en, displayName := displayName }

/-- One iteration of the `data.forEach` loop (lines 64-87): push the display
name onto the list and insert the three candidate aliases into the map. -/
def buildStep (acc : CharMap × List String) (char : RawChar) : CharMap × List String :=
  let payload := processChar char
  let m1 := addKey acc.1 payload.displayName payload
  let m2 := addKey m1 payload.name_cn payload
  let m3 := addKey m2 payload.name_en payload
  (m3, acc.2 ++ [payload.displayName])

/-- Order-preserving first-occurrence deduplication, mirroring
`Array.from(new Set(newList))` (line 90). -/
def dedupFirst : List String → List String :=
  go []
where
  go (seen : List String) : List String → List String
    | [] => []
    | x :: xs => if x ∈ seen then go seen xs else x :: go (x :: seen) xs

/-- Map and display list built from a decoded record array (lines 61-91):
process every record, deduplicate the display list, and substitute the
sentinel entry when the deduplicated list is empty. -/
def buildData (data : List RawChar) : CharMap × List String :=
  let ml := data.foldl buildStep ([], [])
  let uniq := dedupFirst ml.2
  (ml.1, if uniq = [] then ["未加载角色数据"] else uniq)

/-! ## Module state, dataset cache and `loadCharacterDataForFile` -/

/-- Outcome of the `fetch` + `response.json()` + array check for a given
normalized file name: transport failure (`!response.ok`), parse/shape failure
(JSON error or non-array payload), or the decoded array. -/
inductive FetchResult where
  | transport
  | badJson
  | ok (data : List RawChar)
  deriving DecidableEq

/-- Module-level mutable state of `character_preview.js`: `currentFile`,
`characterDataMap`, `characterDisplayList` (lines 6-8) and the `fileCache`
`Map` (line 10).  These are shared by every node instance. -/
structure ModuleState where
  currentFile : String
  characterDataMap : CharMap
  characterDisplayList : List String
  fileCache : List (String × (CharMap × List String))
  deriving DecidableEq

/-- Lookup in the `fileCache` `Map` (`fileCache.get` / `fileCache.has`). -/
def cacheGet : List (String × (CharMap × List String)) → String →
    Option (CharMap × List String)
  | [], _ => none
  | (k', e) :: rest, k => if k' = k then some e else cacheGet rest k

/-- Initial values of the module-level bindings (lines 6-10). -/
def initialState : ModuleState :=
  { currentFile := "", characterDataMap := [], characterDisplayList := [],
    fileCache := [] }

/-- Embedding of `loadCharacterDataForFile` (lines 29-106) over an explicit
fetch oracle.  Returns the updated module state together with the list of
file names fetched during the call (empty on rejection or cache hit,
a single name otherwise); the fetch itself targets the fixed data directory
(`../data/` + name).  Only the success path stores into `fileCache`
(line 93); the catch branch (lines 100-105) installs the sentinel fallback
without touching the cache. -/
def loadCharacterDataForFile (fetch : String → FetchResult) (s : ModuleState)
    (v : String) : ModuleState × List String :=
  let fileName := normalizeJsonFile v
  if fileName = "" then
    ({ currentFile := "", characterDataMap := [],
       characterDisplayList := ["未加载角色数据"], fileCache := s.fileCache }, [])
  else
    match cacheGet s.fileCache fileName with
    | some entry =>
      ({ currentFile := fileName, characterDataMap := entry.1,
         characterDisplayList := entry.2, fileCache := s.fileCache }, [])
    | none =>
      match fetch fileName with
      | FetchResult.ok data =>
        let built := buildData data
        ({ currentFile := fileName, characterDataMap := built.1,
           characterDisplayList := built.2,
           fileCache := s.fileCache ++ [(fileName, built)] }, [fileName])
      | _ =>
        ({ currentFile := fileName, characterDataMap := [],
           characterDisplayList := ["未加载角色数据"], fileCache := s.fileCache },
         [fileName])

/-- Module states reachable from the initial bindings by load operations
(each step may use an arbitrary fetch outcome). -/
inductive Reachable : ModuleState → Prop where
  | init : Reachable initialState
  | step (fetch : String → FetchResult) (v : String) {s : ModuleState} :
      Reachable s → Reachable (loadCharacterDataForFile fetch s v).1

/-- Cache well-formedness: every cached display list is non-empty. -/
def cacheGood (s : ModuleState) : Prop :=
  ∀ e ∈ s.fileCache, (e.2).2 ≠ []

/-! ## Node views of the shared module state

The character and json_file callbacks of every node instance read the same
module-level bindings (lines 254 and 277-290); no per-node copy exists, so
the active state a node observes is independent of the node identifier. -/

/-- Active dataset name as observed by a node: the module-level `currentFile`. -/
def nodeActiveFile (g : ModuleState) (_nodeId : Nat) : String :=
  g.currentFile

/-- Active lookup index as observed by a node: the module-level
`characterDataMap`. -/
def nodeActiveIndex (g : ModuleState) (_nodeId : Nat) : CharMap :=
  g.characterDataMap

/-- Active display list as observed by a node: the module-level
`characterDisplayList`. -/
def nodeActiveList (g : ModuleState) (_nodeId : Nat) : List String :=
  g.characterDisplayList

/-- Dataset change triggered through one node's json_file widget: the
callback runs the module-level `loadCharacterDataForFile` on the shared
state, whichever node fired it. -/
def datasetChangeOnNode (_nodeId : Nat) (fetch : String → FetchResult)
    (g : ModuleState) (v : String) : ModuleState :=
  (loadCharacterDataForFile fetch g v).1

/-- Resolution performed by the character callback (lines 253-264): trim the
widget value, look it up in the shared map, and pass `icon_url` (or the empty
string) to the preview. -/
def resolveIcon (g : ModuleState) (value : String) : String :=
  match mapGet g.characterDataMap (jsTrimStr value) with
  | some payload => payload.icon_url
  | none => ""

/-! ## Combo widget and the json_file change procedure -/

/-- Host combo control: `value` is `Option String` because assigning
`list[0]` of an empty list stores JavaScript `undefined`. -/
structure ComboWidget where
  value : Option String
  optionsValues : List String
  deriving DecidableEq

/-- Boolean membership, mirroring `Array.prototype.includes` on strings. -/
def listHas : List String → String → Bool
  | [], _ => false
  | x :: xs, v => if x = v then true else listHas xs v

/-- Membership test `characterDisplayList.includes(characterWidget.value)`:
an `undefined` value is never a member. -/
def comboMember : Option String → List String → Bool
  | some v, l => listHas l v
  | none, _ => false

/-- Embedding of `setComboValues` (lines 108-111): install the values,
substituting the sentinel list when the given array is empty. -/
def setComboValues (w : ComboWidget) (values : List String) : ComboWidget :=
  { w with optionsValues := if values = [] then ["未加载角色数据"] else values }

/-- Embedding of the json_file change callback body (lines 271-296): reload
the dataset, refresh the character selector's allowed values, reset its value
to the first list entry when the current value is absent from the new list,
then resolve the value through the new map.  Returns the new module state,
the new widget state, and the icon URL handed to `updateImage`. -/
def jsonChangeRefresh (fetch : String → FetchResult) (g : ModuleState)
    (characterWidget : ComboWidget) (jsonValue : String) :
    ModuleState × ComboWidget × String :=
  let g' := (loadCharacterDataForFile fetch g jsonValue).1
  let w1 := setComboValues characterWidget g'.characterDisplayList
  let w2 := if comboMember w1.value g'.characterDisplayList then w1
            else { w1 with value := g'.characterDisplayList.head? }
  (g', w2, resolveIcon g' (w2.value.getD ""))

/-! ## Image preview controller -/

/-- Preview state owned by a node's closure: the image source currently
assigned to the `img` element and the status text drawn when no image is
shown. -/
structure PreviewState where
  imgSrc : String
  statusText : String
  deriving DecidableEq

/-- Initial preview closure state (lines 130-131). -/
def initialPreview : PreviewState :=
  { imgSrc := "", statusText := "选择角色查看预览" }

/-- Uppercase hexadecimal digit. -/
def hexDigitChar (n : Nat) : Char :=
  if n < 10 then Char.ofNat (48 + n) else Char.ofNat (55 + n)

/-- UTF-8 byte sequence of a character, as byte values. -/
def utf8Bytes (c : Char) : List Nat :=
  let n := c.toNat
  if n < 128 then [n]
  else if n < 2048 then [192 + n / 64, 128 + n % 64]
  else if n < 65536 then [224 + n / 4096, 128 + (n / 64) % 64, 128 + n % 64]
  else [240 + n / 262144, 128 + (n / 4096) % 64, 128 + (n / 64) % 64,
        128 + n % 64]

/-- Percent-escape of one byte. -/
def percentEncode (b : Nat) : List Char :=
  ['%', hexDigitChar (b / 16), hexDigitChar (b % 16)]

/-- Per-character application/x-www-form-urlencoded encoding as performed by
`URLSearchParams`: keep alphanumerics and `*-._`, encode a space as `+`,
percent-escape the UTF-8 bytes of everything else. -/
def formEncodeChar (c : Char) : List Char :=
  if c = ' ' then ['+']
  else if c.isAlpha ∨ c.isDigit ∨ c = '*' ∨ c = '-' ∨ c = '.' ∨ c = '_' then [c]
  else ((utf8Bytes c).map percentEncode).flatten

/-- Form-urlencoding of a whole string. -/
def formEncode (s : String) : String :=
  String.mk ((s.data.map formEncodeChar).flatten)

/-- Embedding of `buildPreviewSrc` (lines 215-221): a blank URL yields the
empty string; otherwise the icon URL is rewritten through the local proxy
endpoint `origin + "/character_tag_selector/icon?url=" + encoded`. -/
def buildPreviewSrc (origin : String) (iconUrl : String) : String :=
  let url := jsTrimStr iconUrl
  if url = "" then ""
  else origin ++ "/character_tag_selector/icon?url=" ++ formEncode url

/-- Embedding of `updateImage` (lines 223-237): a blank URL clears the image
and shows the no-preview text without issuing any request; a non-empty URL
enters the loading state and issues a request for the proxied URL (returned
as `some url`). -/
def updateImage (origin : String) (iconUrl : String) :
    PreviewState × Option String :=
  let url :=
    let b := buildPreviewSrc origin iconUrl
    if b = "" then jsTrimStr iconUrl else b
  if url = "" then ({ imgSrc := "", statusText := "该角色无预览图" }, none)
  else ({ imgSrc := url, statusText := "加载中..." }, some url)

/-- Preview-affecting events: an `updateImage` call, or the delivery of a
load / error completion for a previously issued request URL.  Completions
are delivered as later callbacks and may arrive after newer updates. -/
inductive PrevEvent where
  | update (iconUrl : String)
  | imgLoad (url : String)
  | imgError (url : String)

/-- One event step of the preview closure: `img.onload` (line 133) only
requests a redraw and leaves the state unchanged; `img.onerror`
(lines 134-138) unconditionally clears the image and installs the failure
text, without comparing the completed URL against the latest request. -/
def stepPreview (origin : String) (s : PreviewState) : PrevEvent → PreviewState
  | PrevEvent.update u => (updateImage origin u).1
  | PrevEvent.imgLoad _ => s
  | PrevEvent.imgError _ => { imgSrc := "", statusText := "图片加载失败" }

/-! ## Concrete fixtures used by witnesses and counterexamples -/

/-- Raiden Shogun example record from the spec's testable properties. -/
def raidenRecord : RawChar :=
  { name_cn := some "雷电将军", name_en := some "Raiden Shogun",
    icon_url := some "https://icons.example/raiden.png" }

/-- Hu Tao example record (only the localized name A is present). -/
def hutaoRecord : RawChar :=
  { name_cn := some "胡桃", name_en := none, icon_url := none }

/-- Record used by the shared-state and idempotence scenarios. -/
def recordA : RawChar :=
  { name_cn := some "Alice", name_en := none,
    icon_url := some "http://icons/alice.png" }

/-- Second record, for the dataset-switch scenario. -/
def recordB : RawChar :=
  { name_cn := some "Bob", name_en := none,
    icon_url := some "http://icons/bob.png" }

/-- Fetch oracle serving `recordA` for every name. -/
def constFetchA : String → FetchResult :=
  fun _ => FetchResult.ok [recordA]

/-- Fetch oracle failing with a transport error for every name. -/
def alwaysTransport : String → FetchResult :=
  fun _ => FetchResult.transport

/-- Fetch oracle serving two distinct dataset files. -/
def twoFileFetch : String → FetchResult :=
  fun n =>
    if n = "a.json" then FetchResult.ok [recordA]
    else if n = "b.json" then FetchResult.ok [recordB]
    else FetchResult.transport

/-- Module state after node 1 switches its dataset selector to `a.json`. -/
def stateAfterNode1 : ModuleState :=
  datasetChangeOnNode 1 twoFileFetch initialState "a.json"

/-- Module state after node 2 then switches its dataset selector to
`b.json`. -/
def stateAfterNode2 : ModuleState :=
  datasetChangeOnNode 2 twoFileFetch stateAfterNode1 "b.json"

/-! ## Helper lemmas about the string primitives -/

theorem jsPop_mem : ∀ (l : List (List Char)), l ≠ [] → jsPop l ∈ l
  | [], h => absurd rfl h
  | [x], _ => by simp [jsPop]
  | a :: x :: xs, _ => by
      have ih := jsPop_mem (x :: xs) (by simp)
      simp only [jsPop]
      exact List.mem_cons_of_mem a ih

theorem consHead_ne_nil (x : Char) (l : List (List Char)) : consHead x l ≠ [] := by
  cases l <;> simp [consHead]

theorem splitChar_ne_nil (c : Char) (l : List Char) : splitChar c l ≠ [] := by
  induction l with
  | nil => simp [splitChar]
  | cons x xs _ =>
    simp only [splitChar]
    split
    · simp
    · exact consHead_ne_nil x _

theorem not_mem_of_mem_splitChar (c : Char) (l : List Char) :
    ∀ p ∈ splitChar c l, c ∉ p := by
  induction l with
  | nil =>
    intro p hp hc
    simp only [splitChar, List.mem_singleton] at hp
    subst hp
    simp at hc
  | cons x xs ih =>
    intro p hp hc
    simp only [splitChar] at hp
    by_cases hx : x = c
    · rw [if_pos hx] at hp
      rcases List.mem_cons.mp hp with hp | hp
      · subst hp; simp at hc
      · exact ih p hp hc
    · rw [if_neg hx] at hp
      cases hsp : splitChar c xs with
      | nil => exact absurd hsp (splitChar_ne_nil c xs)
      | cons p0 ps =>
        rw [hsp] at hp
        simp only [consHead] at hp
        rcases List.mem_cons.mp hp with hp | hp
        · subst hp
          rcases List.mem_cons.mp hc with h1 | h1
          · exact hx h1.symm
          · exact ih p0 (by rw [hsp]; exact List.mem_cons_self p0 ps) h1
        · exact ih p (by rw [hsp]; exact List.mem_cons_of_mem p0 hp) hc

theorem mem_of_mem_splitChar (c : Char) (l : List Char) :
    ∀ p ∈ splitChar c l, ∀ a ∈ p, a ∈ l := by
  induction l with
  | nil =>
    intro p hp a ha
    simp only [splitChar, List.mem_singleton] at hp
    subst hp
    simp at ha
  | cons x xs ih =>
    intro p hp a ha
    simp only [splitChar] at hp
    by_cases hx : x = c
    · rw [if_pos hx] at hp
      rcases List.mem_cons.mp hp with hp | hp
      · subst hp; simp at ha
      · exact List.mem_cons_of_mem x (ih p hp a ha)
    · rw [if_neg hx] at hp
      cases hsp : splitChar c xs with
      | nil => exact absurd hsp (splitChar_ne_nil c xs)
      | cons p0 ps =>
        rw [hsp] at hp
        simp only [consHead] at hp
        rcases List.mem_cons.mp hp with hp | hp
        · subst hp
          rcases List.mem_cons.mp ha with h1 | h1
          · exact h1 ▸ List.mem_cons_self x xs
          · exact List.mem_cons_of_mem x
              (ih p0 (by rw [hsp]; exact List.mem_cons_self p0 ps) a h1)
        · exact List.mem_cons_of_mem x
            (ih p (by rw [hsp]; exact List.mem_cons_of_mem p0 hp) a ha)

theorem hasChar_eq_false_of_not_mem {l : List Char} {a : Char} (h : a ∉ l) :
    hasChar l a = false := by
  induction l with
  | nil => rfl
  | cons x xs ih =>
    simp only [List.mem_cons, not_or] at h
    simp only [hasChar]
    rw [if_neg (fun he => h.1 he.symm), ih h.2]

theorem slashify_ne_backslash (c : Char) : slashify c ≠ '\\' := by
  unfold slashify
  split
  · decide
  · rename_i h; exact h

theorem normalizeJsonFile_eq (v : String) :
    normalizeJsonFile v =
      if jsTrim v.data = [] then ""
      else if hasDoubleDot (finalSegment v) then ""
      else String.mk (finalSegment v) := rfl

theorem normalizeJsonFile_no_separator (v : String) :
    hasChar (normalizeJsonFile v).data '/' = false ∧
    hasChar (normalizeJsonFile v).data '\\' = false ∧
    hasDoubleDot (normalizeJsonFile v).data = false := by
  rw [normalizeJsonFile_eq]
  by_cases h : jsTrim v.data = []
  · rw [if_pos h]; exact ⟨rfl, rfl, rfl⟩
  · rw [if_neg h]
    by_cases hd : hasDoubleDot (finalSegment v) = true
    · rw [if_pos hd]; exact ⟨rfl, rfl, rfl⟩
    · rw [if_neg hd]
      have hmem : finalSegment v ∈ splitChar '/' ((jsTrim v.data).map slashify) :=
        jsPop_mem _ (splitChar_ne_nil '/' _)
      have h1 : '/' ∉ finalSegment v :=
        not_mem_of_mem_splitChar '/' _ _ hmem
      have h2 : '\\' ∉ finalSegment v := by
        intro hm
        rcases List.mem_map.mp
          (mem_of_mem_splitChar '/' _ _ hmem '\\' hm) with ⟨c, _, hc⟩
        exact slashify_ne_backslash c hc
      exact ⟨hasChar_eq_false_of_not_mem h1, hasChar_eq_false_of_not_mem h2,
        Bool.eq_false_iff.mpr hd⟩

/-! ## Claim C1 -/

/-- C1 counterexample: for the input `"../secret.json"` the normalization
operation does not return the empty string — it strips to the basename and
returns `"secret.json"`, so the claim that this input is rejected (empty
result) is false on the code. -/
theorem normalize_traversal_counterexample :
    normalizeJsonFile "../secret.json" = "secret.json" ∧
    normalizeJsonFile "../secret.json" ≠ "" := by
  constructor
  · decide
  · decide

/-- C1 amended: normalizing `"../secret.json"` yields the bare basename
`"secret.json"` rather than the empty string; the code rejects (returns the
empty string) only when the final path segment itself contains `".."`.
Because the normalized result never contains a path separator or a `".."`
sequence and is fetched relative to the fixed data directory, no fetch
outside the data directory is ever performed for a name containing a
traversal sequence. -/
theorem normalize_traversal_sanitized :
    normalizeJsonFile "../secret.json" = "secret.json" ∧
    ∀ v : String,
      hasChar (normalizeJsonFile v).data '/' = false ∧
      hasChar (normalizeJsonFile v).data '\\' = false ∧
      hasDoubleDot (normalizeJsonFile v).data = false :=
  ⟨by decide, normalizeJsonFile_no_separator⟩

/-! ## Claim C10 -/

/-- C10: for every input string, `normalizeJsonFile` returns either the
empty string or the final path segment of the input (after trimming and
replacing backslashes with forward slashes); the result never contains a
path separator; it returns the empty string whenever that final segment
contains `".."` anywhere — including the benign filename `"a..b.json"`,
which involves no directory traversal. -/
theorem normalizeJsonFile_basename_characterization :
    (∀ v : String,
      (normalizeJsonFile v = "" ∨ normalizeJsonFile v = String.mk (finalSegment v)) ∧
      hasChar (normalizeJsonFile v).data '/' = false ∧
      hasChar (normalizeJsonFile v).data '\\' = false ∧
      (hasDoubleDot (finalSegment v) = true → normalizeJsonFile v = "")) ∧
    normalizeJsonFile "a..b.json" = "" := by
  constructor
  · intro v
    refine ⟨?_, (normalizeJsonFile_no_separator v).1,
      (normalizeJsonFile_no_separator v).2.1, ?_⟩
    · rw [normalizeJsonFile_eq]
      by_cases h : jsTrim v.data = []
      · rw [if_pos h]; exact Or.inl rfl
      · rw [if_neg h]
        by_cases hd : hasDoubleDot (finalSegment v) = true
        · rw [if_pos hd]; exact Or.inl rfl
        · rw [if_neg hd]; exact Or.inr rfl
    · intro hd
      rw [normalizeJsonFile_eq]
      by_cases h : jsTrim v.data = []
      · rw [if_pos h]
      · rw [if_neg h, if_pos hd]
  · decide

/-- C10 witness: the claim's theorem applied at the concrete input
`"dir/a..b.json"`, whose final segment contains `".."`, yields rejection. -/
theorem normalizeJsonFile_basename_characterization_witness :
    hasDoubleDot (finalSegment "dir/a..b.json") = true ∧
    normalizeJsonFile "dir/a..b.json" = "" :=
  ⟨by decide,
    (normalizeJsonFile_basename_characterization.1 "dir/a..b.json").2.2.2 (by decide)⟩

/-! ## Helper lemmas about the loader and the dataset cache -/

theorem load_of_rejected (fetch : String → FetchResult) (s : ModuleState)
    (v : String) (h : normalizeJsonFile v = "") :
    loadCharacterDataForFile fetch s v =
      ({ currentFile := "", characterDataMap := [],
         characterDisplayList := ["未加载角色数据"], fileCache := s.fileCache }, []) := by
  simp [loadCharacterDataForFile, h]

theorem load_of_hit (fetch : String → FetchResult) (s : ModuleState)
    (v : String) (entry : CharMap × List String)
    (h1 : normalizeJsonFile v ≠ "")
    (h2 : cacheGet s.fileCache (normalizeJsonFile v) = some entry) :
    loadCharacterDataForFile fetch s v =
      ({ currentFile := normalizeJsonFile v, characterDataMap := entry.1,
         characterDisplayList := entry.2, fileCache := s.fileCache }, []) := by
  simp [loadCharacterDataForFile, h1, h2]

theorem load_of_miss_ok (fetch : String → FetchResult) (s : ModuleState)
    (v : String) (data : List RawChar)
    (h1 : normalizeJsonFile v ≠ "")
    (h2 : cacheGet s.fileCache (normalizeJsonFile v) = none)
    (h3 : fetch (normalizeJsonFile v) = FetchResult.ok data) :
    loadCharacterDataForFile fetch s v =
      ({ currentFile := normalizeJsonFile v,
         characterDataMap := (buildData data).1,
         characterDisplayList := (buildData data).2,
         fileCache := s.fileCache ++ [(normalizeJsonFile v, buildData data)] },
       [normalizeJsonFile v]) := by
  simp [loadCharacterDataForFile, h1, h2, h3]

theorem load_of_miss_fail (fetch : String → FetchResult) (s : ModuleState)
    (v : String)
    (h1 : normalizeJsonFile v ≠ "")
    (h2 : cacheGet s.fileCache (normalizeJsonFile v) = none)
    (h3 : fetch (normalizeJsonFile v) = FetchResult.transport ∨
          fetch (normalizeJsonFile v) = FetchResult.badJson) :
    loadCharacterDataForFile fetch s v =
      ({ currentFile := normalizeJsonFile v, characterDataMap := [],
         characterDisplayList := ["未加载角色数据"], fileCache := s.fileCache },
       [normalizeJsonFile v]) := by
  rcases h3 with h3 | h3 <;> simp [loadCharacterDataForFile, h1, h2, h3]

theorem cacheGet_append_single
    {cache : List (String × (CharMap × List String))} {k : String}
    (e : CharMap × List String) (h : cacheGet cache k = none) :
    cacheGet (cache ++ [(k, e)]) k = some e := by
  induction cache with
  | nil => simp [cacheGet]
  | cons x xs ih =>
    obtain ⟨k', e'⟩ := x
    simp only [cacheGet] at h
    by_cases hk : k' = k
    · rw [if_pos hk] at h; simp at h
    · rw [if_neg hk] at h
      simp only [List.cons_append, cacheGet]
      rw [if_neg hk]
      exact ih h

theorem cacheGet_mem {cache : List (String × (CharMap × List String))}
    {k : String} {e : CharMap × List String}
    (h : cacheGet cache k = some e) : (k, e) ∈ cache := by
  induction cache with
  | nil => cases h
  | cons x xs ih =>
    obtain ⟨k', e'⟩ := x
    simp only [cacheGet] at h
    by_cases hk : k' = k
    · rw [if_pos hk] at h
      injection h with he
      subst hk
      subst he
      exact List.mem_cons_self _ _
    · rw [if_neg hk] at h
      exact List.mem_cons_of_mem _ (ih h)

theorem buildData_list_ne_nil (data : List RawChar) : (buildData data).2 ≠ [] := by
  simp only [buildData]
  split
  · simp
  · rename_i h; exact h

theorem load_preserves_cacheGood (fetch : String → FetchResult)
    (s : ModuleState) (v : String) (h : cacheGood s) :
    cacheGood (loadCharacterDataForFile fetch s v).1 := by
  by_cases h1 : normalizeJsonFile v = ""
  · rw [load_of_rejected fetch s v h1]; exact h
  · cases h2 : cacheGet s.fileCache (normalizeJsonFile v) with
    | some entry => rw [load_of_hit fetch s v entry h1 h2]; exact h
    | none =>
      cases h3 : fetch (normalizeJsonFile v) with
      | ok data =>
        rw [load_of_miss_ok fetch s v data h1 h2 h3]
        intro e he
        rcases List.mem_append.mp he with he | he
        · exact h e he
        · simp only [List.mem_singleton] at he
          subst he
          exact buildData_list_ne_nil data
      | transport =>
        rw [load_of_miss_fail fetch s v h1 h2 (Or.inl h3)]; exact h
      | badJson =>
        rw [load_of_miss_fail fetch s v h1 h2 (Or.inr h3)]; exact h

theorem reachable_cacheGood {s : ModuleState} (h : Reachable s) : cacheGood s := by
  induction h with
  | init => intro e he; simp [initialState] at he
  | step fetch v _ ih => exact load_preserves_cacheGood fetch _ v ih

theorem load_list_ne_nil (fetch : String → FetchResult) (s : ModuleState)
    (v : String) (h : cacheGood s) :
    (loadCharacterDataForFile fetch s v).1.characterDisplayList ≠ [] := by
  by_cases h1 : normalizeJsonFile v = ""
  · rw [load_of_rejected fetch s v h1]; simp
  · cases h2 : cacheGet s.fileCache (normalizeJsonFile v) with
    | some entry =>
      rw [load_of_hit fetch s v entry h1 h2]
      exact h _ (cacheGet_mem h2)
    | none =>
      cases h3 : fetch (normalizeJsonFile v) with
      | ok data =>
        rw [load_of_miss_ok fetch s v data h1 h2 h3]
        exact buildData_list_ne_nil data
      | transport =>
        rw [load_of_miss_fail fetch s v h1 h2 (Or.inl h3)]; simp
      | badJson =>
        rw [load_of_miss_fail fetch s v h1 h2 (Or.inr h3)]; simp

/-! ## Claim C2 -/

/-- C2 counterexample: the active dataset state observed by node 1 is NOT
left unchanged by a dataset change performed on node 2.  After node 1 loads
`a.json` and node 2 then loads `b.json`, node 1's observed dataset name,
index and display list have all changed, and node 1's character callback no
longer resolves its previously selected character. -/
theorem nodes_share_state_counterexample :
    nodeActiveFile stateAfterNode1 1 = "a.json" ∧
    nodeActiveFile stateAfterNode2 1 = "b.json" ∧
    nodeActiveIndex stateAfterNode2 1 ≠ nodeActiveIndex stateAfterNode1 1 ∧
    nodeActiveList stateAfterNode2 1 ≠ nodeActiveList stateAfterNode1 1 ∧
    resolveIcon stateAfterNode1 "Alice" = "http://icons/alice.png" ∧
    resolveIcon stateAfterNode2 "Alice" = "" := by
  exact ⟨by decide, by decide, by decide, by decide, by decide, by decide⟩

/-- C2 amended: the active dataset name, active lookup index and active
display list are module-level bindings shared by every node instance; after
a dataset-change operation performed through any node, every node observes
exactly the state installed by that change.  Nodes own no independent copy;
they share these bindings together with the dataset cache. -/
theorem nodes_observe_shared_state (fetch : String → FetchResult)
    (g : ModuleState) (v : String) (n₁ n₂ : Nat) :
    nodeActiveFile (datasetChangeOnNode n₂ fetch g v) n₁
        = (loadCharacterDataForFile fetch g v).1.currentFile ∧
    nodeActiveIndex (datasetChangeOnNode n₂ fetch g v) n₁
        = (loadCharacterDataForFile fetch g v).1.characterDataMap ∧
    nodeActiveList (datasetChangeOnNode n₂ fetch g v) n₁
        = (loadCharacterDataForFile fetch g v).1.characterDisplayList :=
  ⟨rfl, rfl, rfl⟩

/-! ## Claim C4 -/

/-- C4: for a resource name whose first `getOrLoad` call succeeded (cache
miss followed by a successful fetch), a second call with the same name and
no intervening data change yields the identical (by value) index and display
list, the first call performed exactly one fetch and the second call
performed none. -/
theorem getOrLoad_idempotent (fetch : String → FetchResult) (s : ModuleState)
    (v : String) (data : List RawChar)
    (hname : normalizeJsonFile v ≠ "")
    (hmiss : cacheGet s.fileCache (normalizeJsonFile v) = none)
    (hok : fetch (normalizeJsonFile v) = FetchResult.ok data) :
    (loadCharacterDataForFile fetch (loadCharacterDataForFile fetch s v).1 v).1.characterDataMap
        = (loadCharacterDataForFile fetch s v).1.characterDataMap ∧
    (loadCharacterDataForFile fetch (loadCharacterDataForFile fetch s v).1 v).1.characterDisplayList
        = (loadCharacterDataForFile fetch s v).1.characterDisplayList ∧
    (loadCharacterDataForFile fetch s v).2 = [normalizeJsonFile v] ∧
    (loadCharacterDataForFile fetch (loadCharacterDataForFile fetch s v).1 v).2 = [] := by
  have h1 := load_of_miss_ok fetch s v data hname hmiss hok
  have hhit : cacheGet (loadCharacterDataForFile fetch s v).1.fileCache
      (normalizeJsonFile v) = some (buildData data) := by
    rw [h1]
    exact cacheGet_append_single _ hmiss
  have h2 := load_of_hit fetch (loadCharacterDataForFile fetch s v).1 v
    (buildData data) hname hhit
  rw [h2, h1]
  exact ⟨rfl, rfl, rfl, rfl⟩

/-- C4 witness: the idempotence theorem applied at a concrete state, name
and fetch oracle. -/
theorem getOrLoad_idempotent_witness :
    (loadCharacterDataForFile constFetchA
        (loadCharacterDataForFile constFetchA initialState "a.json").1 "a.json").1.characterDataMap
        = (loadCharacterDataForFile constFetchA initialState "a.json").1.characterDataMap ∧
    (loadCharacterDataForFile constFetchA
        (loadCharacterDataForFile constFetchA initialState "a.json").1 "a.json").1.characterDisplayList
        = (loadCharacterDataForFile constFetchA initialState "a.json").1.characterDisplayList ∧
    (loadCharacterDataForFile constFetchA initialState "a.json").2
        = [normalizeJsonFile "a.json"] ∧
    (loadCharacterDataForFile constFetchA
        (loadCharacterDataForFile constFetchA initialState "a.json").1 "a.json").2 = [] :=
  getOrLoad_idempotent constFetchA initialState "a.json" [recordA]
    (by decide) rfl rfl

/-! ## Claim C5 -/

/-- C5 counterexample: a cache-missing name whose fetch fails is NOT stored
in the cache — after a failing load of `"bad.json"` the cache is still
empty, and a second call with the same name performs the failing fetch
again. -/
theorem failed_load_not_cached_counterexample :
    (loadCharacterDataForFile alwaysTransport initialState "bad.json").1.fileCache = [] ∧
    (loadCharacterDataForFile alwaysTransport initialState "bad.json").2 = ["bad.json"] ∧
    (loadCharacterDataForFile alwaysTransport
        (loadCharacterDataForFile alwaysTransport initialState "bad.json").1 "bad.json").2
      = ["bad.json"] := by
  exact ⟨by decide, by decide, by decide⟩

/-- C5 amended: only a successful load stores into the cache.  For every
cache-missing name: when the fetch and parse succeed (including for an empty
array, whose sentinel result IS cached) the built result is stored under the
name; when the fetch or parse fails, the sentinel fallback is installed as
the active state but the cache is left unchanged, so a subsequent call with
the same name performs the failing fetch again. -/
theorem failed_load_not_cached (fetch : String → FetchResult) (s : ModuleState)
    (v : String)
    (hname : normalizeJsonFile v ≠ "")
    (hmiss : cacheGet s.fileCache (normalizeJsonFile v) = none) :
    ((fetch (normalizeJsonFile v) = FetchResult.transport ∨
      fetch (normalizeJsonFile v) = FetchResult.badJson) →
        (loadCharacterDataForFile fetch s v).1.fileCache = s.fileCache ∧
        (loadCharacterDataForFile fetch s v).1.characterDisplayList = ["未加载角色数据"] ∧
        (loadCharacterDataForFile fetch s v).1.characterDataMap = [] ∧
        (loadCharacterDataForFile fetch
            (loadCharacterDataForFile fetch s v).1 v).2 = [normalizeJsonFile v]) ∧
    (∀ data, fetch (normalizeJsonFile v) = FetchResult.ok data →
        cacheGet (loadCharacterDataForFile fetch s v).1.fileCache (normalizeJsonFile v)
          = some (buildData data)) := by
  constructor
  · intro hfail
    have h1 := load_of_miss_fail fetch s v hname hmiss hfail
    rw [h1]
    refine ⟨rfl, rfl, rfl, ?_⟩
    dsimp only
    rw [load_of_miss_fail fetch
      { currentFile := normalizeJsonFile v, characterDataMap := [],
        characterDisplayList := ["未加载角色数据"], fileCache := s.fileCache }
      v hname hmiss hfail]
  · intro data hok
    rw [load_of_miss_ok fetch s v data hname hmiss hok]
    exact cacheGet_append_single _ hmiss

/-- C5 witness: the amended theorem applied at a concrete failing fetch. -/
theorem failed_load_not_cached_witness :
    (loadCharacterDataForFile alwaysTransport initialState "nope.json").1.fileCache
        = initialState.fileCache ∧
    (loadCharacterDataForFile alwaysTransport
        (loadCharacterDataForFile alwaysTransport initialState "nope.json").1
        "nope.json").2 = [normalizeJsonFile "nope.json"] :=
  have h := failed_load_not_cached alwaysTransport initialState "nope.json"
    (by decide) rfl
  ⟨(h.1 (Or.inl rfl)).1, (h.1 (Or.inl rfl)).2.2.2⟩

/-! ## Claim C6 -/

/-- C6: for every input record the derived display name follows the spec's
rule (combined form when both trimmed names are non-empty, else the single
non-empty name, else the fixed placeholder); for the Raiden Shogun record the
display name is `"雷电将军 (Raiden Shogun)"` and the index built from it
contains exactly the three alias keys, all resolving to the same payload;
for the Hu Tao record (only localized name A) the display name is `"胡桃"`
and the index contains exactly one alias. -/
theorem displayName_rule_and_alias_examples :
    (∀ r : RawChar, (processChar r).displayName
        = specDisplayName (jsTrimStr (r.name_cn.getD ""))
            (jsTrimStr (r.name_en.getD ""))) ∧
    (processChar raidenRecord).displayName = "雷电将军 (Raiden Shogun)" ∧
    mapGet (buildData [raidenRecord]).1 "雷电将军 (Raiden Shogun)"
        = some (processChar raidenRecord) ∧
    mapGet (buildData [raidenRecord]).1 "雷电将军" = some (processChar raidenRecord) ∧
    mapGet (buildData [raidenRecord]).1 "Raiden Shogun"
        = some (processChar raidenRecord) ∧
    (buildData [raidenRecord]).1.length = 3 ∧
    (processChar hutaoRecord).displayName = "胡桃" ∧
    (buildData [hutaoRecord]).1.length = 1 :=
  ⟨fun _ => rfl, by decide, by decide, by decide, by decide, by decide,
   by decide, by decide⟩

/-! ## Claim C7 -/

/-- C7: after every load operation from a reachable module state the active
display list is non-empty; when the name is rejected the active list is
exactly the single sentinel entry and the active index is empty; and for a
cache-missing name the same sentinel/empty fallback results both when the
fetch or parse fails and when the fetched array is empty. -/
theorem load_fallback_invariant (fetch : String → FetchResult)
    (s : ModuleState) (v : String) (hs : Reachable s) :
    (loadCharacterDataForFile fetch s v).1.characterDisplayList ≠ [] ∧
    (normalizeJsonFile v = "" →
      (loadCharacterDataForFile fetch s v).1.characterDisplayList = ["未加载角色数据"] ∧
      (loadCharacterDataForFile fetch s v).1.characterDataMap = []) ∧
    (normalizeJsonFile v ≠ "" →
      cacheGet s.fileCache (normalizeJsonFile v) = none →
      ((fetch (normalizeJsonFile v) = FetchResult.transport ∨
        fetch (normalizeJsonFile v) = FetchResult.badJson) →
        (loadCharacterDataForFile fetch s v).1.characterDisplayList = ["未加载角色数据"] ∧
        (loadCharacterDataForFile fetch s v).1.characterDataMap = []) ∧
      (fetch (normalizeJsonFile v) = FetchResult.ok [] →
        (loadCharacterDataForFile fetch s v).1.characterDisplayList = ["未加载角色数据"] ∧
        (loadCharacterDataForFile fetch s v).1.characterDataMap = [])) := by
  refine ⟨load_list_ne_nil fetch s v (reachable_cacheGood hs), ?_, ?_⟩
  · intro h
    rw [load_of_rejected fetch s v h]
    exact ⟨rfl, rfl⟩
  · intro h1 h2
    constructor
    · intro hfail
      rw [load_of_miss_fail fetch s v h1 h2 hfail]
      exact ⟨rfl, rfl⟩
    · intro hok
      rw [load_of_miss_ok fetch s v [] h1 h2 hok]
      exact ⟨rfl, rfl⟩

/-- C7 witness: the invariant applied at the initial state with a failing
fetch for a concrete name. -/
theorem load_fallback_invariant_witness :
    (loadCharacterDataForFile alwaysTransport initialState "x.json").1.characterDisplayList
        = ["未加载角色数据"] ∧
    (loadCharacterDataForFile alwaysTransport initialState "x.json").1.characterDataMap
        = [] :=
  ((load_fallback_invariant alwaysTransport initialState "x.json"
      Reachable.init).2.2 (by decide) rfl).1 (Or.inl rfl)

/-! ## Claim C8 -/

/-- C8: for every call of the preview update operation with an empty or
whitespace-only icon URL, the preview transitions to the empty state (no
image source, placeholder status text) and no image request is issued. -/
theorem updateImage_blank_yields_empty (origin iconUrl : String)
    (h : jsTrimStr iconUrl = "") :
    updateImage origin iconUrl
      = ({ imgSrc := "", statusText := "该角色无预览图" }, none) := by
  simp [updateImage, buildPreviewSrc, h]

/-- C8 witness: the theorem applied at a whitespace-only icon URL. -/
theorem updateImage_blank_yields_empty_witness :
    updateImage "http://localhost:8188" "   "
      = ({ imgSrc := "", statusText := "该角色无预览图" }, none) :=
  updateImage_blank_yields_empty "http://localhost:8188" "   " (by decide)

/-! ## Claim C3 -/

/-- C3 (code bug): evaluation of the preview event handlers at the failing
trace.  The first update issues a request for the proxied URL of
`"http://a/i.png"`; a second update with a blank icon URL establishes the
newest state, Empty (`"该角色无预览图"`, no request); delivering the error
completion of the first — now stale — request afterwards overwrites that
newest state with the failure text and clears the image, because the
`onerror` handler performs no staleness check on the completed URL. -/
theorem stale_error_completion_overwrites :
    (updateImage "http://localhost:8188" "http://a/i.png").2
      = some "http://localhost:8188/character_tag_selector/icon?url=http%3A%2F%2Fa%2Fi.png" ∧
    (updateImage "http://localhost:8188" "").1
      = { imgSrc := "", statusText := "该角色无预览图" } ∧
    (updateImage "http://localhost:8188" "").2 = none ∧
    stepPreview "http://localhost:8188"
        (updateImage "http://localhost:8188" "").1
        (PrevEvent.imgError
          "http://localhost:8188/character_tag_selector/icon?url=http%3A%2F%2Fa%2Fi.png")
      = { imgSrc := "", statusText := "图片加载失败" } ∧
    ({ imgSrc := "", statusText := "图片加载失败" } : PreviewState)
      ≠ { imgSrc := "", statusText := "该角色无预览图" } :=
  ⟨by decide, by decide, by decide, by decide, by decide⟩

/-! ## Claim C9 -/

theorem listHas_eq_true_of_mem {l : List String} {x : String} (h : x ∈ l) :
    listHas l x = true := by
  induction l with
  | nil => simp at h
  | cons y ys ih =>
    simp only [listHas]
    rcases List.mem_cons.mp h with h | h
    · rw [if_pos h.symm]
    · by_cases hy : y = x
      · rw [if_pos hy]
      · rw [if_neg hy]; exact ih h

theorem setComboValues_value (w : ComboWidget) (l : List String) :
    (setComboValues w l).value = w.value := rfl

theorem setComboValues_optionsValues (w : ComboWidget) (l : List String) :
    (setComboValues w l).optionsValues
      = if l = [] then ["未加载角色数据"] else l := rfl

theorem jsonChangeRefresh_widget (fetch : String → FetchResult)
    (g : ModuleState) (w : ComboWidget) (v : String) :
    (jsonChangeRefresh fetch g w v).2.1 =
      (if comboMember w.value (loadCharacterDataForFile fetch g v).1.characterDisplayList
       then setComboValues w (loadCharacterDataForFile fetch g v).1.characterDisplayList
       else { setComboValues w (loadCharacterDataForFile fetch g v).1.characterDisplayList
              with value := (loadCharacterDataForFile fetch g v).1.characterDisplayList.head? }) :=
  rfl

/-- C9: on every dataset-control change, the character selector's
allowed-values list is replaced by the new display list; the selector's
current value is kept exactly when it is a member of the new list and reset
to the new list's first entry when it is not; and the icon URL handed to the
preview is the resulting value resolved through the new index. -/
theorem datasetChange_refresh_spec (fetch : String → FetchResult)
    (g : ModuleState) (w : ComboWidget) (v : String) (hg : Reachable g) :
    (jsonChangeRefresh fetch g w v).2.1.optionsValues
        = (loadCharacterDataForFile fetch g v).1.characterDisplayList ∧
    (∀ x, w.value = some x →
      x ∈ (loadCharacterDataForFile fetch g v).1.characterDisplayList →
      (jsonChangeRefresh fetch g w v).2.1.value = some x) ∧
    (comboMember w.value (loadCharacterDataForFile fetch g v).1.characterDisplayList = false →
      (jsonChangeRefresh fetch g w v).2.1.value
        = (loadCharacterDataForFile fetch g v).1.characterDisplayList.head?) ∧
    (jsonChangeRefresh fetch g w v).2.2
      = resolveIcon (loadCharacterDataForFile fetch g v).1
          (((jsonChangeRefresh fetch g w v).2.1.value).getD "") := by
  have hnil := load_list_ne_nil fetch g v (reachable_cacheGood hg)
  refine ⟨?_, ?_, ?_, rfl⟩
  · rw [jsonChangeRefresh_widget]
    by_cases hc : comboMember w.value
        (loadCharacterDataForFile fetch g v).1.characterDisplayList = true
    · rw [if_pos hc, setComboValues_optionsValues, if_neg hnil]
    · rw [if_neg hc]
      show (setComboValues w _).optionsValues = _
      rw [setComboValues_optionsValues, if_neg hnil]
  · intro x hx hmem
    have hc : comboMember w.value
        (loadCharacterDataForFile fetch g v).1.characterDisplayList = true := by
      rw [hx]
      exact listHas_eq_true_of_mem hmem
    rw [jsonChangeRefresh_widget, if_pos hc, setComboValues_value, hx]
  · intro hc
    rw [jsonChangeRefresh_widget, if_neg (by rw [hc]; simp)]

/-- C9 witness: the refresh theorem applied with a concrete dataset, once
with a value absent from the new list (reset to the first entry) and once
with a value present in it (left unchanged). -/
theorem datasetChange_refresh_spec_witness :
    (jsonChangeRefresh constFetchA initialState ⟨some "Zed", []⟩ "a.json").2.1.value
        = some "Alice" ∧
    (jsonChangeRefresh constFetchA initialState ⟨some "Alice", []⟩ "a.json").2.1.value
        = some "Alice" ∧
    (jsonChangeRefresh constFetchA initialState ⟨some "Zed", []⟩ "a.json").2.1.optionsValues
        = ["Alice"] ∧
    (jsonChangeRefresh constFetchA initialState ⟨some "Zed", []⟩ "a.json").2.2
        = "http://icons/alice.png" := by
  have h1 := datasetChange_refresh_spec constFetchA initialState
    ⟨some "Zed", []⟩ "a.json" Reachable.init
  have h2 := datasetChange_refresh_spec constFetchA initialState
    ⟨some "Alice", []⟩ "a.json" Reachable.init
  refine ⟨?_, ?_, ?_, ?_⟩
  · exact (h1.2.2.1 (by decide)).trans (by decide)
  · exact h2.2.1 "Alice" rfl (by decide)
  · exact h1.1.trans (by decide)
  · exact (h1.2.2.2).trans (by decide)

end CharacterPreview
